import Mathlib

/-
Verification of the nn-tools-services Gemini chat adapter
(src/endpoints/llm/geminiChat.ts, src/endpoints/llm/base.ts).

Strings are modelled as lists of characters (`Str`), provider payloads as a
`Json` value type with JavaScript truthiness, and `JSON.parse` as a fueled
recursive-descent parser.  The streaming translator, buffered translator and
endpoint handler are shallow embeddings of the TypeScript source.
-/

namespace GeminiSvc

/-- Strings at the level of the model: lists of characters. -/
abbrev Str := List Char

/-- Model of a parsed JSON value (result of `JSON.parse`). -/
inductive Json where
  | null
  | bool (b : Bool)
  | num (n : Int)
  | str (s : Str)
  | arr (elems : List Json)
  | obj (fields : List (Str × Json))

/-- JavaScript truthiness of a JSON value: `null`, `false`, `0` and the empty
string are falsy; arrays and objects are always truthy. -/
def truthy : Json → Bool
  | Json.null => false
  | Json.bool b => b
  | Json.num n => n != 0
  | Json.str s => s != []
  | Json.arr _ => true
  | Json.obj _ => true

/-- Field lookup in an object field list; on duplicate keys the last entry
wins, as in `JSON.parse`. -/
def lookupField : List (Str × Json) → Str → Option Json
  | [], _ => none
  | (k, v) :: rest, key =>
    match lookupField rest key with
    | some v2 => some v2
    | none => if k = key then some v else none

/-- JavaScript property access `j.key`: defined only on objects, `none`
models `undefined`. -/
def getField (j : Json) (key : Str) : Option Json :=
  match j with
  | Json.obj fs => lookupField fs key
  | _ => none

/-- JavaScript index access `j[i]`: array element, object property named by
the decimal index, or one-character string for string indexing. -/
def getIndex (j : Json) (i : Nat) : Option Json :=
  match j with
  | Json.arr xs => xs.get? i
  | Json.obj fs => lookupField fs (toString i).toList
  | Json.str s => (s.get? i).map (fun c => Json.str [c])
  | _ => none

/-- Helper for JavaScript string coercion of arrays. -/
def joinSep (ss : List Str) : Str := List.intercalate [','] ss

mutual
/-- JavaScript string coercion `String(v)` of a JSON value (used by
`TextEncoder.encode`). -/
def jsToString : Json → Str
  | Json.null => "null".toList
  | Json.bool true => "true".toList
  | Json.bool false => "false".toList
  | Json.num n => (toString n).toList
  | Json.str s => s
  | Json.arr xs => joinSep (jsListStrs xs)
  | Json.obj _ => "[object Object]".toList

/-- String coercions of a list of JSON values. -/
def jsListStrs : List Json → List Str
  | [] => []
  | j :: js => jsToString j :: jsListStrs js
end

/-! ### JavaScript string helpers -/

/-- Whitespace characters recognised by the model. -/
def isWsChar (c : Char) : Bool := c = ' ' || c = '\n' || c = '\t' || c = '\r'

/-- Model of `String.prototype.trim`. -/
def jsTrim (l : Str) : Str :=
  ((l.dropWhile isWsChar).reverse.dropWhile isWsChar).reverse

/-- Model of `String.prototype.split` with a one-character separator. -/
def splitOnChar (sep : Char) : Str → List Str
  | [] => [[]]
  | c :: cs =>
    if c = sep then [] :: splitOnChar sep cs
    else
      match splitOnChar sep cs with
      | r :: rs => (c :: r) :: rs
      | [] => [[c]]

/-! ### Model of `JSON.parse` (fueled recursive descent) -/

/-- Skip JSON whitespace. -/
def skipWs (cs : Str) : Str := cs.dropWhile isWsChar

/-- Value of a hexadecimal digit. -/
def hexVal (c : Char) : Option Nat :=
  if '0' ≤ c ∧ c ≤ '9' then some (c.toNat - 48)
  else if 'a' ≤ c ∧ c ≤ 'f' then some (c.toNat - 87)
  else if 'A' ≤ c ∧ c ≤ 'F' then some (c.toNat - 55)
  else none

/-- Unescaped character for a JSON string escape `\c`. -/
def escCharFor (e : Char) : Option Char :=
  if e = 'n' then some '\n'
  else if e = 't' then some '\t'
  else if e = 'r' then some '\r'
  else if e = 'b' then some (Char.ofNat 8)
  else if e = 'f' then some (Char.ofNat 12)
  else if e = '"' ∨ e = '\\' ∨ e = '/' then some e
  else none

/-- Parse the body of a JSON string after the opening quote; returns the
decoded content and the remainder after the closing quote. -/
def parseStringBody : Str → Option (Str × Str)
  | [] => none
  | c :: rest =>
    if c = '"' then some ([], rest)
    else if c = '\\' then
      match rest with
      | [] => none
      | e :: rest2 =>
        if e = 'u' then
          match rest2 with
          | a :: b :: c2 :: d :: rest3 =>
            match hexVal a, hexVal b, hexVal c2, hexVal d with
            | some ha, some hb, some hc, some hd =>
              match parseStringBody rest3 with
              | some (s, r) =>
                some (Char.ofNat (((ha * 16 + hb) * 16 + hc) * 16 + hd) :: s, r)
              | none => none
            | _, _, _, _ => none
          | _ => none
        else
          match escCharFor e with
          | some ec =>
            match parseStringBody rest2 with
            | some (s, r) => some (ec :: s, r)
            | none => none
          | none => none
    else
      match parseStringBody rest with
      | some (s, r) => some (c :: s, r)
      | none => none

/-- Numeric value of a digit sequence. -/
def digitsToNat (ds : Str) : Nat := ds.foldl (fun a c => a * 10 + (c.toNat - 48)) 0

/-- Parse a JSON integer literal (the model covers integral numbers, which is
all the adapter's counters use). -/
def parseNumber (cs : Str) : Option (Int × Str) :=
  let p := match cs with
    | '-' :: t => (true, t)
    | _ => (false, cs)
  let ds := p.2.takeWhile Char.isDigit
  let rest := p.2.dropWhile Char.isDigit
  if ds = [] then none
  else
    let v : Int := if p.1 then -(digitsToNat ds : Int) else (digitsToNat ds : Int)
    match rest with
    | c :: _ => if c = '.' ∨ c = 'e' ∨ c = 'E' then none else some (v, rest)
    | [] => some (v, [])

mutual
/-- Parse one JSON value. -/
def parseVal : Nat → Str → Option (Json × Str)
  | 0, _ => none
  | fuel + 1, cs =>
    let cs1 := skipWs cs
    match cs1 with
    | 'n' :: 'u' :: 'l' :: 'l' :: rest => some (Json.null, rest)
    | 't' :: 'r' :: 'u' :: 'e' :: rest => some (Json.bool true, rest)
    | 'f' :: 'a' :: 'l' :: 's' :: 'e' :: rest => some (Json.bool false, rest)
    | '"' :: rest => (parseStringBody rest).map (fun p => (Json.str p.1, p.2))
    | '[' :: rest =>
      match skipWs rest with
      | ']' :: r2 => some (Json.arr [], r2)
      | cs2 => (parseElems fuel cs2).map (fun p => (Json.arr p.1, p.2))
    | '{' :: rest =>
      match skipWs rest with
      | '}' :: r2 => some (Json.obj [], r2)
      | cs2 => (parseMembers fuel cs2).map (fun p => (Json.obj p.1, p.2))
    | cs2 => (parseNumber cs2).map (fun p => (Json.num p.1, p.2))

/-- Parse the elements of a non-empty JSON array. -/
def parseElems : Nat → Str → Option (List Json × Str)
  | 0, _ => none
  | fuel + 1, cs =>
    match parseVal fuel cs with
    | none => none
    | some (v, r) =>
      match skipWs r with
      | ',' :: r2 =>
        match parseElems fuel r2 with
        | some (vs, r3) => some (v :: vs, r3)
        | none => none
      | ']' :: r2 => some ([v], r2)
      | _ => none

/-- Parse the members of a non-empty JSON object. -/
def parseMembers : Nat → Str → Option (List (Str × Json) × Str)
  | 0, _ => none
  | fuel + 1, cs =>
    match skipWs cs with
    | '"' :: rest =>
      match parseStringBody rest with
      | none => none
      | some (key, r) =>
        match skipWs r with
        | ':' :: r2 =>
          match parseVal fuel r2 with
          | none => none
          | some (v, r3) =>
            match skipWs r3 with
            | ',' :: r4 =>
              match parseMembers fuel r4 with
              | some (fs, r5) => some ((key, v) :: fs, r5)
              | none => none
            | '}' :: r4 => some ([(key, v)], r4)
            | _ => none
        | _ => none
    | _ => none
end

/-- Model of `JSON.parse`: parse one value and require only trailing
whitespace after it; `none` models a thrown `SyntaxError`. -/
def jsonParse (cs : Str) : Option Json :=
  match parseVal (2 * cs.length + 2) cs with
  | some (j, rest) => if skipWs rest = [] then some j else none
  | none => none

/-! ### Text extraction from a provider event / document

Embedding of the `&&`-guarded extraction chain shared by
`handleStreamResponse` and `handleNormalResponse`:
`data.candidates && data.candidates[0] && data.candidates[0].content`
followed by `content.parts && content.parts[0] && content.parts[0].text`.
-/

/-- Key name constants used by the adapter. -/
def kCandidates : Str := "candidates".toList

/-- Key "content". -/
def kContent : Str := "content".toList

/-- Key "parts". -/
def kParts : Str := "parts".toList

/-- Key "text". -/
def kText : Str := "text".toList

/-- Key "usageMetadata". -/
def kUsageMetadata : Str := "usageMetadata".toList

/-- The first candidate's first text part as extracted by the source's
truthiness-guarded chain; `some t` exactly when the source would read a
truthy `data.candidates[0].content.parts[0].text` value `t`. -/
def extractFirstText (j : Json) : Option Json :=
  match getField j kCandidates with
  | none => none
  | some cands =>
    if truthy cands then
      match getIndex cands 0 with
      | none => none
      | some c0 =>
        if truthy c0 then
          match getField c0 kContent with
          | none => none
          | some content =>
            if truthy content then
              match getField content kParts with
              | none => none
              | some parts =>
                if truthy parts then
                  match getIndex parts 0 with
                  | none => none
                  | some p0 =>
                    if truthy p0 then
                      match getField p0 kText with
                      | none => none
                      | some t => if truthy t then some t else none
                    else none
                else none
            else none
        else none
    else none

/-- Is the value a JSON string? -/
def isStrJson : Json → Bool
  | Json.str _ => true
  | _ => false

/-- A document is text-well-formed when the value the source's chain extracts
(if any) is a string, as the provider contract promises. -/
def textOk (j : Json) : Bool :=
  match extractFirstText j with
  | some t => isStrJson t
  | none => true

/-- String projection of a JSON value. -/
def asString : Json → Option Str
  | Json.str s => some s
  | _ => none

/-- Modelled from the spec: the first candidate's first `text` field of a
provider event or document, navigated structurally with no truthiness
guards (spec §4.3/§4.4: "exactly the first candidate's first text part"). -/
def specFirstText (j : Json) : Option Str :=
  (((((getField j kCandidates).bind (fun cs => getIndex cs 0)).bind
      (fun c0 => getField c0 kContent)).bind
      (fun ct => getField ct kParts)).bind
      (fun ps => getIndex ps 0)).bind
      (fun p0 => (getField p0 kText).bind asString)

/-! ### Streaming translator (`handleStreamResponse`) -/

/-- The literal `"data: "`. -/
def dataPfx : Str := "data: ".toList

/-- Model of `line.startsWith("data: ")`. -/
def startsWithData (l : Str) : Bool := l.take 6 == dataPfx

/-- Model of the guard `line.trim() && line.startsWith("data: ")`. -/
def isDataLine (l : Str) : Bool := (jsTrim l != []) && startsWithData l

/-- Processing of one line of a decoded chunk: on a significant line, remove
the six-character prefix (`line.slice(6)`), parse it, and if the extraction
chain yields a truthy text value, emit its encoded string; any other case
(non-significant line, parse error, missing candidates or text) emits
nothing.  Parameterised by the parse function modelling `JSON.parse`. -/
def processLine (parse : Str → Option Json) (line : Str) : Option Str :=
  if isDataLine line then
    match parse (line.drop 6) with
    | some data => (extractFirstText data).map jsToString
    | none => none
  else none

/-- Fragments emitted while processing one decoded chunk: the chunk is split
on newlines and each line is processed independently (the source keeps no
residual line across reads). -/
def chunkEmits (parse : Str → Option Json) (chunk : Str) : List Str :=
  (splitOnChar '\n' chunk).filterMap (processLine parse)

/-- How the upstream read sequence ends: clean end-of-data, or a thrown
exception carrying an error value. -/
inductive Ending where
  | eof
  | fail (e : Str)

/-- Terminal state of the caller-facing stream: closed cleanly after the
listed fragments, or put into an error state after them. -/
inductive StreamOutcome where
  | closed (frags : List Str)
  | errored (frags : List Str) (e : Str)

/-- The producer loop of `handleStreamResponse`: read chunks in order,
emitting each chunk's fragments; on `done` call `controller.close()`, and on
a read exception call `controller.error(e)`. -/
def runStream (parse : Str → Option Json) (ending : Ending) :
    List Str → StreamOutcome
  | [] =>
    match ending with
    | Ending.eof => StreamOutcome.closed []
    | Ending.fail e => StreamOutcome.errored [] e
  | chunk :: rest =>
    match runStream parse ending rest with
    | StreamOutcome.closed fs =>
      StreamOutcome.closed (chunkEmits parse chunk ++ fs)
    | StreamOutcome.errored fs e =>
      StreamOutcome.errored (chunkEmits parse chunk ++ fs) e

/-- Fragments delivered to the caller before the stream terminated. -/
def outFrags : StreamOutcome → List Str
  | StreamOutcome.closed fs => fs
  | StreamOutcome.errored fs _ => fs

/-- Whether the caller-facing stream closed cleanly. -/
def isClosed : StreamOutcome → Bool
  | StreamOutcome.closed _ => true
  | StreamOutcome.errored _ _ => false

/-- All lines seen by the translator across the reads, in arrival order. -/
def linesOf (chunks : List Str) : List Str :=
  (chunks.map (splitOnChar '\n')).flatten

/-- Modelled from the spec: the text contributed by one line of the provider
stream — the first candidate's first text part of the JSON payload of a
`"data: "`-prefixed line, and nothing for any other line (spec §4.3). -/
def specContribution (parse : Str → Option Json) (l : Str) : Str :=
  if startsWithData l then
    match parse (l.drop 6) with
    | some j => (specFirstText j).getD []
    | none => []
  else []

/-- Every event successfully parsed from this line carries a string (or
falsy) text value. -/
def lineTextOk (parse : Str → Option Json) (l : Str) : Bool :=
  match parse (l.drop 6) with
  | some j => textOk j
  | none => true

/-- All events parsed anywhere in the stream are text-well-formed. -/
def streamTextOk (parse : Str → Option Json) (chunks : List Str) : Bool :=
  (linesOf chunks).all (lineTextOk parse)

/-- Every line of this chunk is either not `"data: "`-prefixed or fails to
parse. -/
def deadChunk (parse : Str → Option Json) (c : Str) : Bool :=
  (splitOnChar '\n' c).all
    (fun l => !(startsWithData l) || (parse (l.drop 6)).isNone)

/-! ### Buffered translator (`handleNormalResponse`) -/

/-- Normalized usage counters of a `ChatResponse`; field values are the raw
JSON values the source puts there. -/
structure UsageV where
  prompt_tokens : Json
  completion_tokens : Json
  total_tokens : Json

/-- Model of `x || 0`: the value when truthy, otherwise `0`. -/
def orZero (o : Option Json) : Json :=
  match o with
  | some j => if truthy j then j else Json.num 0
  | none => Json.num 0

/-- Key "promptTokenCount". -/
def kPrompt : Str := "promptTokenCount".toList

/-- Key "candidatesTokenCount". -/
def kCandTok : Str := "candidatesTokenCount".toList

/-- Key "totalTokenCount". -/
def kTotalTok : Str := "totalTokenCount".toList

/-- The usage-metadata field of a document is a proper block: absent, or an
object (the shape the provider contract gives it). -/
def usageBlockOk (d : Json) : Bool :=
  match getField d kUsageMetadata with
  | some (Json.obj _) => true
  | some _ => false
  | none => true

/-- The usage block of the buffered response:
`data.usageMetadata ? {..mapping with || 0 defaults..} : undefined`. -/
def usageOf (data : Json) : Option UsageV :=
  match getField data kUsageMetadata with
  | some um =>
    if truthy um then
      some { prompt_tokens := orZero (getField um kPrompt)
             completion_tokens := orZero (getField um kCandTok)
             total_tokens := orZero (getField um kTotalTok) }
    else none
  | none => none

/-- The caller-visible buffered JSON response. -/
structure ChatRespV where
  success : Bool
  conversation_id : Str
  message : Json
  usage : Option UsageV

/-- Model of `handleNormalResponse`: extract the message through the guarded
chain (defaulting to the empty string), extract usage, and answer with
`success: true`. -/
def handleNormalResponse (data : Json) (conversationId : Str) : ChatRespV :=
  { success := true
    conversation_id := conversationId
    message := (extractFirstText data).getD (Json.str [])
    usage := usageOf data }

/-! ### Request validation and the endpoint handler (`handle`) -/

/-- Raw inbound JSON body; `none` models an absent field. -/
structure RawBody where
  message : Option Str
  conversation_id : Option Str
  temperature : Option ℚ
  max_tokens : Option ℚ
  stream : Option Bool

/-- A validated `ChatRequest` with defaults applied. -/
structure ChatReq where
  message : Str
  conversation_id : Option Str
  temperature : ℚ
  max_tokens : ℚ
  stream : Bool

/-- Model of the zod `ChatRequest` schema of `base.ts`:
`message` a string of length at least 1, `temperature` in `[0, 2]` with
default `0.7`, `max_tokens` in `[1, 8192]` with default `1024`, `stream`
with default `true`; `none` models a thrown validation error. -/
def validateChatRequest (b : RawBody) : Option ChatReq :=
  match b.message with
  | none => none
  | some m =>
    if m = [] then none
    else
      let t := b.temperature.getD (7 / 10)
      if t < 0 ∨ 2 < t then none
      else
        let mt := b.max_tokens.getD 1024
        if mt < 1 ∨ 8192 < mt then none
        else
          some { message := m
                 conversation_id := b.conversation_id
                 temperature := t
                 max_tokens := mt
                 stream := b.stream.getD true }

/-- Model of `c.env.GEMINI_API_KEY` followed by `if (!apiKey)`: the key is
usable when present and non-empty. -/
def keyPresent (k : Option Str) : Bool :=
  match k with
  | some s => s != []
  | none => false

/-- Model of `conversation_id || this.generateConversationId()`: the
caller-supplied id when truthy, otherwise the freshly generated one. -/
def resolveConvId (c : Option Str) (gid : Str) : Str :=
  match c with
  | some s => if s != [] then s else gid
  | none => gid

/-- The provider's `fetch` result: HTTP status, the body as a chunked byte
stream (for the streaming path; `none` models a null `response.body`), and
the body as one JSON document (for the buffered path; `none` models a
`response.json()` failure). -/
structure FetchResponse where
  status : Nat
  streamBody : Option (List Str × Ending)
  doc : Option Json

/-- Model of `response.ok`: status in the 2xx range. -/
def fetchOk (f : FetchResponse) : Bool := decide (200 ≤ f.status ∧ f.status < 300)

/-- Error envelope `{ success, error }`. -/
structure ErrBody where
  success : Bool
  error : Str

/-- The provider-failure error message `Gemini API请求失败: <status>`. -/
def providerErrMsg (status : Nat) : Str :=
  "Gemini API请求失败: ".toList ++ (toString status).toList

/-- The missing-credential error message. -/
def keyMissingMsg : Str := "Gemini API密钥未配置".toList

/-- The terminal result of one request, with its HTTP status where the
source fixes one. -/
inductive HandleOutcome where
  | badRequest (status : Nat)
  | missingKey (status : Nat) (body : ErrBody)
  | providerFailed (status : Nat) (body : ErrBody)
  | internalError (status : Nat) (body : ErrBody)
  | streamResp (conversationId : Str) (out : StreamOutcome)
  | normalResp (resp : ChatRespV)

/-- Outcome of a request together with how many provider calls and
translator invocations were made while producing it. -/
structure HandleTrace where
  outcome : HandleOutcome
  providerCalls : Nat
  translatorCalls : Nat

/-- Model of `GeminiChatEndpoint.handle`: validate the body (failures are
rejected before any provider call; the 400 envelope is produced by the
route/transport shell, modelled from the spec), check the credential, call
the provider once, intercept non-2xx statuses, and otherwise hand the body
to the streaming or buffered translator. -/
def handleModel (body : RawBody) (key : Option Str) (fetch : FetchResponse)
    (gid : Str) : HandleTrace :=
  match validateChatRequest body with
  | none => { outcome := HandleOutcome.badRequest 400
              providerCalls := 0, translatorCalls := 0 }
  | some req =>
    if keyPresent key then
      if fetchOk fetch then
        let convId := resolveConvId req.conversation_id gid
        if req.stream then
          match fetch.streamBody with
          | some p =>
            { outcome := HandleOutcome.streamResp convId
                (runStream jsonParse p.2 p.1)
              providerCalls := 1, translatorCalls := 1 }
          | none =>
            { outcome := HandleOutcome.internalError 500
                { success := false, error := "无法读取流式响应".toList }
              providerCalls := 1, translatorCalls := 0 }
        else
          match fetch.doc with
          | some d =>
            { outcome := HandleOutcome.normalResp (handleNormalResponse d convId)
              providerCalls := 1, translatorCalls := 1 }
          | none =>
            { outcome := HandleOutcome.internalError 500
                { success := false, error := "处理请求时发生内部错误".toList }
              providerCalls := 1, translatorCalls := 0 }
      else
        { outcome := HandleOutcome.providerFailed fetch.status
            { success := false, error := providerErrMsg fetch.status }
          providerCalls := 1, translatorCalls := 0 }
    else
      { outcome := HandleOutcome.missingKey 500
          { success := false, error := keyMissingMsg }
        providerCalls := 0, translatorCalls := 0 }

/-! ### Concrete inputs used by witnesses -/

/-- A valid raw body selecting the streaming path. -/
def bodyValid : RawBody := ⟨some ['h', 'i'], none, some 1, some 100, some true⟩

/-- The validated request for `bodyValid`. -/
def reqValid : ChatReq := ⟨['h', 'i'], none, 1, 100, true⟩

/-- A valid raw body selecting the buffered path. -/
def bodyBuf : RawBody := ⟨some ['h', 'i'], none, some 1, some 100, some false⟩

/-- The validated request for `bodyBuf`. -/
def reqBuf : ChatReq := ⟨['h', 'i'], none, 1, 100, false⟩

/-- A provider document with one candidate whose first part says hello. -/
def docHello : Json :=
  Json.obj [(kCandidates, Json.arr [Json.obj [(kContent,
    Json.obj [(kParts, Json.arr [Json.obj [(kText,
      Json.str ("hello".toList))]])])]])]

/-- A provider document whose usage block carries the three counters. -/
def docUsage : Json :=
  Json.obj [(kUsageMetadata, Json.obj
    [(kPrompt, Json.num 1), (kCandTok, Json.num 1), (kTotalTok, Json.num 2)])]

/-- A provider document whose usage block reports a zero prompt counter and
omits the other two counters. -/
def docUsageZero : Json :=
  Json.obj [(kUsageMetadata, Json.obj [(kPrompt, Json.num 0)])]

/-- A demo provider stream: two reads, four events (one of them not JSON,
one without candidates), plus blank lines. -/
def chunksDemo : List Str :=
  [("data: \x7b\"candidates\":[\x7b\"content\":\x7b\"parts\":[\x7b\"text\":\"Hel\"\x7d]\x7d\x7d]\x7d\n\ndata: notjson\ndata: \x7b\x7d\n").toList,
   ("data: \x7b\"candidates\":[\x7b\"content\":\x7b\"parts\":[\x7b\"text\":\"lo\"\x7d]\x7d\x7d]\x7d\n").toList]

/-- A healthy read emitting the text A. -/
def chunkA : Str :=
  ("data: \x7b\"candidates\":[\x7b\"content\":\x7b\"parts\":[\x7b\"text\":\"A\"\x7d]\x7d\x7d]\x7d\n").toList

/-- A healthy read emitting the text B. -/
def chunkB : Str :=
  ("data: \x7b\"candidates\":[\x7b\"content\":\x7b\"parts\":[\x7b\"text\":\"B\"\x7d]\x7d\x7d]\x7d\n").toList

/-- A read whose lines are a comment, a corrupt event and a blank line. -/
def chunkDead : Str := (": comment\ndata: \x7bnotjson\n").toList

/-! ### Basic lemmas -/

/-- An element on which the predicate fails survives `dropWhile`. -/
theorem mem_dropWhile_of_neg {α : Type} {p : α → Bool} {a : α}
    (ha : p a = false) : ∀ {l : List α}, a ∈ l → a ∈ l.dropWhile p := by
  intro l h
  induction l with
  | nil => cases h
  | cons x xs ih =>
    cases hx : p x with
    | true =>
      rw [List.dropWhile_cons_of_pos hx]
      rcases List.mem_cons.mp h with h1 | h1
      · subst h1; rw [ha] at hx; cases hx
      · exact ih h1
    | false =>
      rw [List.dropWhile_cons_of_neg (by simp [hx])]
      exact h

/-- A string containing a non-whitespace character does not trim to the
empty string. -/
theorem jsTrim_ne_nil_of_mem {a : Char} {l : Str} (ha : isWsChar a = false)
    (h : a ∈ l) : jsTrim l ≠ [] := by
  unfold jsTrim
  have h1 : a ∈ l.dropWhile isWsChar := mem_dropWhile_of_neg ha h
  have h2 : a ∈ (l.dropWhile isWsChar).reverse := List.mem_reverse.mpr h1
  have h3 : a ∈ ((l.dropWhile isWsChar).reverse.dropWhile isWsChar) :=
    mem_dropWhile_of_neg ha h2
  have h4 : a ∈ ((l.dropWhile isWsChar).reverse.dropWhile isWsChar).reverse :=
    List.mem_reverse.mpr h3
  exact List.ne_nil_of_mem h4

/-- A `"data: "`-prefixed line has a non-empty trim, so the source's guard
`line.trim() && line.startsWith("data: ")` reduces to the prefix test. -/
theorem isDataLine_eq_startsWithData (l : Str) :
    isDataLine l = startsWithData l := by
  unfold isDataLine
  cases hs : startsWithData l with
  | false => simp
  | true =>
    have htake : l.take 6 = dataPfx := by
      have := hs; unfold startsWithData at this; exact eq_of_beq this
    have hd : 'd' ∈ l := by
      have : 'd' ∈ l.take 6 := by rw [htake]; unfold dataPfx; decide
      exact List.mem_of_mem_take this
    have := jsTrim_ne_nil_of_mem (a := 'd') (by decide) hd
    simp [this]

/-- Property access on a falsy value cannot succeed. -/
theorem getField_of_falsy (j : Json) (k : Str) (h : truthy j = false) :
    getField j k = none := by
  cases j <;> simp_all [truthy, getField]

/-- Index access on a falsy value cannot succeed. -/
theorem getIndex_of_falsy (j : Json) (i : Nat) (h : truthy j = false) :
    getIndex j i = none := by
  cases j <;> simp_all [truthy, getIndex]

/-! ### Lemmas about the streaming loop -/

/-- On clean upstream end-of-data the loop closes the caller-facing stream
after emitting each chunk's fragments in order. -/
theorem runStream_eof (parse : Str → Option Json) (chunks : List Str) :
    runStream parse Ending.eof chunks =
      StreamOutcome.closed ((chunks.map (chunkEmits parse)).flatten) := by
  induction chunks with
  | nil => rfl
  | cons c cs ih => simp [runStream, ih]

/-- On an upstream read exception the loop puts the caller-facing stream
into an error state after the fragments already emitted. -/
theorem runStream_fail (parse : Str → Option Json) (e : Str)
    (chunks : List Str) :
    runStream parse (Ending.fail e) chunks =
      StreamOutcome.errored ((chunks.map (chunkEmits parse)).flatten) e := by
  induction chunks with
  | nil => rfl
  | cons c cs ih => simp [runStream, ih]

/-- The guarded extraction chain of the source agrees, at the level of
emitted text, with the structural first-candidate-first-part extraction of
the specification, provided any extracted value is a string. -/
theorem extract_agree (j : Json) (h : textOk j = true) :
    ((extractFirstText j).map jsToString).getD [] = (specFirstText j).getD [] := by
  unfold extractFirstText specFirstText
  cases h1 : getField j kCandidates with
  | none => simp [h1]
  | some cands =>
    cases h2 : truthy cands with
    | false => simp [h1, h2, getIndex_of_falsy cands 0 h2]
    | true =>
      cases h3 : getIndex cands 0 with
      | none => simp [h1, h2, h3]
      | some c0 =>
        cases h4 : truthy c0 with
        | false => simp [h1, h2, h3, h4, getField_of_falsy c0 kContent h4]
        | true =>
          cases h5 : getField c0 kContent with
          | none => simp [h1, h2, h3, h4, h5]
          | some content =>
            cases h6 : truthy content with
            | false => simp [h1, h2, h3, h4, h5, h6, getField_of_falsy content kParts h6]
            | true =>
              cases h7 : getField content kParts with
              | none => simp [h1, h2, h3, h4, h5, h6, h7]
              | some parts =>
                cases h8 : truthy parts with
                | false => simp [h1, h2, h3, h4, h5, h6, h7, h8, getIndex_of_falsy parts 0 h8]
                | true =>
                  cases h9 : getIndex parts 0 with
                  | none => simp [h1, h2, h3, h4, h5, h6, h7, h8, h9]
                  | some p0 =>
                    cases h10 : truthy p0 with
                    | false => simp [h1, h2, h3, h4, h5, h6, h7, h8, h9, h10,
                        getField_of_falsy p0 kText h10]
                    | true =>
                      cases h11 : getField p0 kText with
                      | none => simp [h1, h2, h3, h4, h5, h6, h7, h8, h9, h10, h11]
                      | some t =>
                        cases h12 : truthy t with
                        | false =>
                          cases t <;>
                            simp_all [truthy, asString, h1, h2, h3, h4, h5, h6,
                              h7, h8, h9, h10, h11]
                        | true =>
                          have hx : extractFirstText j = some t := by
                            simp [extractFirstText, h1, h2, h3, h4, h5, h6, h7,
                              h8, h9, h10, h11, h12]
                          unfold textOk at h
                          rw [hx] at h
                          cases t <;> simp_all [isStrJson, asString, jsToString,
                            h1, h2, h3, h4, h5, h6, h7, h8, h9, h10, h11]

/-- Per line, the text the loop emits equals the specification's
contribution for that line. -/
theorem processLine_spec (parse : Str → Option Json) (l : Str)
    (h : lineTextOk parse l = true) :
    (processLine parse l).getD [] = specContribution parse l := by
  unfold processLine specContribution
  rw [isDataLine_eq_startsWithData]
  cases hs : startsWithData l with
  | false => simp
  | true =>
    simp only [if_pos rfl]
    cases hp : parse (l.drop 6) with
    | none => simp
    | some j =>
      have hj : textOk j = true := by
        unfold lineTextOk at h; rw [hp] at h; exact h
      simpa using extract_agree j hj

/-- Concatenating the emitted fragments of a line list equals concatenating
the specification's per-line contributions. -/
theorem filterMap_flatten_spec (parse : Str → Option Json) :
    ∀ ls : List Str, (∀ l ∈ ls, lineTextOk parse l = true) →
      ((ls.filterMap (processLine parse)).flatten : Str) =
        ((ls.map (specContribution parse)).flatten) := by
  intro lns
  induction lns with
  | nil =>
    intro _
    rfl
  | cons ln rest ih =>
    intro h
    have h1 : lineTextOk parse ln = true := h ln (List.mem_cons_self ln rest)
    have h2 : ∀ x ∈ rest, lineTextOk parse x = true :=
      fun x hx => h x (List.mem_cons_of_mem ln hx)
    have hs := processLine_spec parse ln h1
    cases hp : processLine parse ln with
    | none =>
      rw [hp] at hs
      simp only [List.filterMap_cons, hp, List.map_cons, List.flatten_cons,
        ← hs, List.nil_append]
      exact ih h2
    | some s =>
      rw [hp, Option.getD_some] at hs
      simp only [List.filterMap_cons, hp, List.map_cons, List.flatten_cons, ← hs]
      rw [ih h2]

/-- Chunk-level version: the emitted fragments of the whole stream
concatenate to the specification's line-by-line extraction. -/
theorem emits_flatten_spec (parse : Str → Option Json) :
    ∀ chunks : List Str, streamTextOk parse chunks = true →
      (((chunks.map (chunkEmits parse)).flatten).flatten : Str) =
        ((linesOf chunks).map (specContribution parse)).flatten := by
  intro chunks
  unfold streamTextOk linesOf
  induction chunks with
  | nil =>
    intro _
    rfl
  | cons c cs ih =>
    intro h
    rw [List.map_cons, List.flatten_cons, List.map_cons, List.flatten_cons,
      List.flatten_append, List.map_append, List.flatten_append]
    have hc : ∀ l ∈ splitOnChar '\n' c, lineTextOk parse l = true := by
      intro l hl
      refine List.all_eq_true.mp h l ?_
      rw [List.map_cons, List.flatten_cons]
      exact List.mem_append_left _ hl
    have hcs : ((cs.map (splitOnChar '\n')).flatten).all (lineTextOk parse) = true := by
      rw [List.all_eq_true]
      intro l hl
      refine List.all_eq_true.mp h l ?_
      rw [List.map_cons, List.flatten_cons]
      exact List.mem_append_right _ hl
    rw [ih hcs]
    unfold chunkEmits
    rw [filterMap_flatten_spec parse _ hc]

/-- A chunk all of whose lines are insignificant or unparseable emits
nothing. -/
theorem chunkEmits_of_dead (parse : Str → Option Json) (c : Str)
    (h : deadChunk parse c = true) : chunkEmits parse c = [] := by
  unfold chunkEmits
  rw [List.filterMap_eq_nil_iff]
  intro l hl
  have hline := List.all_eq_true.mp h l hl
  unfold processLine
  rw [isDataLine_eq_startsWithData]
  cases hs : startsWithData l with
  | false => simp
  | true =>
    rw [hs] at hline
    simp only [Bool.not_true, Bool.false_or] at hline
    rw [Option.isNone_iff_eq_none] at hline
    simp [hline]

/-- `orZero` is the identity on numeric counters, including zero. -/
theorem orZero_num (a : Int) : orZero (some (Json.num a)) = Json.num a := by
  unfold orZero truthy
  by_cases ha : a = 0 <;> simp [ha]

/-! ### Claims -/

/-- C1: for every streaming invocation, the concatenation of all fragments
emitted on the caller-facing stream equals the concatenation, in arrival
order, of the extracted text of every successfully parsed `"data: "`-prefixed
line of the provider stream, each parsed event contributing exactly its first
candidate's first text part and contributing nothing when it has no
candidates or no text parts (events whose extracted text value is a string,
per the provider contract). -/
theorem stream_concat_matches_extracted (parse : Str → Option Json)
    (chunks : List Str) (h : streamTextOk parse chunks = true) :
    ∃ frags, runStream parse Ending.eof chunks = StreamOutcome.closed frags ∧
      (frags.flatten : Str) =
        ((linesOf chunks).map (specContribution parse)).flatten :=
  ⟨_, runStream_eof parse chunks, emits_flatten_spec parse chunks h⟩

/-- C1 witness: a concrete two-read stream with a split message, a blank
line, a corrupt line and a candidate-free event. -/
theorem stream_concat_matches_extracted_witness :
    streamTextOk jsonParse chunksDemo = true ∧
    (∃ frags, runStream jsonParse Ending.eof chunksDemo =
        StreamOutcome.closed frags ∧
      (frags.flatten : Str) =
        ((linesOf chunksDemo).map (specContribution jsonParse)).flatten) :=
  ⟨rfl, stream_concat_matches_extracted jsonParse chunksDemo rfl⟩

/-- C2: evaluation showing the streaming translator is NOT invariant under
re-chunking: one provider byte sequence, delivered as one read, yields the
fragment "hi"; the same bytes delivered as two reads that split the
`"data: "` line yield no output, because the loop keeps no residual line
across reads. -/
theorem chunking_changes_stream_output :
    runStream jsonParse Ending.eof
        [("data: \x7b\"candidates\":[\x7b\"content\":\x7b\"parts\":[\x7b\"text\":\"hi\"\x7d]\x7d\x7d]\x7d\n").toList] =
      StreamOutcome.closed [("hi".toList)] ∧
    runStream jsonParse Ending.eof
        [("data: \x7b\"cand").toList,
         ("idates\":[\x7b\"content\":\x7b\"parts\":[\x7b\"text\":\"hi\"\x7d]\x7d\x7d]\x7d\n").toList] =
      StreamOutcome.closed [] ∧
    ("data: \x7b\"cand").toList ++
        ("idates\":[\x7b\"content\":\x7b\"parts\":[\x7b\"text\":\"hi\"\x7d]\x7d\x7d]\x7d\n").toList =
      ("data: \x7b\"candidates\":[\x7b\"content\":\x7b\"parts\":[\x7b\"text\":\"hi\"\x7d]\x7d\x7d]\x7d\n").toList :=
  ⟨rfl, rfl, rfl⟩

/-- C3: a read whose lines all either lack the `"data: "` prefix or fail to
parse contributes nothing, does not abort the loop, and the fragments
extracted before and after it are still delivered in order. -/
theorem malformed_lines_skipped (parse : Str → Option Json)
    (pre post : List Str) (c : Str) (h : deadChunk parse c = true) :
    isClosed (runStream parse Ending.eof (pre ++ c :: post)) = true ∧
    outFrags (runStream parse Ending.eof (pre ++ c :: post)) =
      outFrags (runStream parse Ending.eof pre) ++
        outFrags (runStream parse Ending.eof post) := by
  rw [runStream_eof, runStream_eof, runStream_eof]
  refine ⟨rfl, ?_⟩
  unfold outFrags
  rw [List.map_append, List.flatten_append, List.map_cons, List.flatten_cons,
    chunkEmits_of_dead parse c h, List.nil_append]

/-- C3 witness: a comment line plus a corrupt `data:` line between two
healthy reads. -/
theorem malformed_lines_skipped_witness :
    deadChunk jsonParse chunkDead = true ∧
    (isClosed (runStream jsonParse Ending.eof ([chunkA] ++ chunkDead :: [chunkB])) = true ∧
     outFrags (runStream jsonParse Ending.eof ([chunkA] ++ chunkDead :: [chunkB])) =
       outFrags (runStream jsonParse Ending.eof [chunkA]) ++
         outFrags (runStream jsonParse Ending.eof [chunkB])) :=
  ⟨rfl, malformed_lines_skipped jsonParse [chunkA] [chunkB] chunkDead rfl⟩

/-- C4: an exception raised while reading the upstream stream terminates the
caller-facing stream in an error state carrying that exception, while
upstream end-of-data closes it cleanly, in both cases after the fragments
already emitted — so a partial response is distinguishable from a complete
one. -/
theorem stream_error_propagation (parse : Str → Option Json)
    (chunks : List Str) (e : Str) :
    (∃ fs, runStream parse (Ending.fail e) chunks = StreamOutcome.errored fs e) ∧
    (∃ fs, runStream parse Ending.eof chunks = StreamOutcome.closed fs) :=
  ⟨⟨_, runStream_fail parse e chunks⟩, ⟨_, runStream_eof parse chunks⟩⟩

/-- C5 counterexample: a message consisting of a single space passes the
zod validation (`z.string().min(1)`) and the provider IS called — the claim
that whitespace-only messages fail validation with HTTP 400 and zero
provider invocations is false of the code. -/
theorem whitespace_message_reaches_provider :
    (validateChatRequest ⟨some [' '], none, some 1, some 100, none⟩).isSome = true ∧
    (handleModel ⟨some [' '], none, some 1, some 100, none⟩ (some ['k'])
        ⟨200, some ([], Ending.eof), none⟩ []).providerCalls = 1 :=
  ⟨rfl, rfl⟩

/-- C5 amended: a request whose message is absent or empty fails validation
and is answered with HTTP 400 before any provider call (zero provider
invocations); a whitespace-only message, however, passes validation. -/
theorem absent_or_empty_message_rejected (body : RawBody) (key : Option Str)
    (fetch : FetchResponse) (gid : Str)
    (h : body.message = none ∨ body.message = some []) :
    handleModel body key fetch gid =
      { outcome := HandleOutcome.badRequest 400
        providerCalls := 0, translatorCalls := 0 } := by
  rcases h with h | h <;> simp [handleModel, validateChatRequest, h]

/-- C5 witness: the empty-bodied request is rejected with no provider
call. -/
theorem absent_or_empty_message_rejected_witness :
    ((⟨none, none, none, none, none⟩ : RawBody).message = none ∨
      (⟨none, none, none, none, none⟩ : RawBody).message = some []) ∧
    handleModel ⟨none, none, none, none, none⟩ (some ['k']) ⟨200, none, none⟩ [] =
      { outcome := HandleOutcome.badRequest 400
        providerCalls := 0, translatorCalls := 0 } :=
  ⟨Or.inl rfl, absent_or_empty_message_rejected ⟨none, none, none, none, none⟩
    (some ['k']) ⟨200, none, none⟩ [] (Or.inl rfl)⟩

/-- C6: on the buffered path, for a provider document whose extracted text
value is a string (the provider contract), the response's message is the
first text part of the document's first candidate — the empty string when
the document has no candidates, no content or no text parts — and `success`
is `true` in all cases. -/
theorem buffered_message_first_text (body : RawBody) (req : ChatReq)
    (key : Option Str) (fetch : FetchResponse) (gid : Str) (d : Json)
    (hv : validateChatRequest body = some req) (hs : req.stream = false)
    (hk : keyPresent key = true) (hok : fetchOk fetch = true)
    (hd : fetch.doc = some d) (ht : textOk d = true) :
    ∃ resp, (handleModel body key fetch gid).outcome =
        HandleOutcome.normalResp resp ∧
      resp.success = true ∧
      resp.message = Json.str ((specFirstText d).getD []) := by
  refine ⟨handleNormalResponse d (resolveConvId req.conversation_id gid),
    ?_, rfl, ?_⟩
  · simp [handleModel, hv, hk, hok, hs, hd]
  · have hagree := extract_agree d ht
    unfold handleNormalResponse
    cases he : extractFirstText d with
    | none =>
      rw [he] at hagree
      simp only [Option.map_none', Option.getD_none] at hagree
      simp [← hagree]
    | some t =>
      have htk := ht
      unfold textOk at htk
      rw [he] at htk
      rw [he] at hagree
      cases t <;> simp_all [isStrJson, jsToString]

/-- C6 witness: the hello document yields message `"hello"` with
`success: true`. -/
theorem buffered_message_first_text_witness :
    validateChatRequest bodyBuf = some reqBuf ∧ textOk docHello = true ∧
    (∃ resp, (handleModel bodyBuf (some ['k']) ⟨200, none, some docHello⟩
          ['g']).outcome = HandleOutcome.normalResp resp ∧
      resp.success = true ∧
      resp.message = Json.str ((specFirstText docHello).getD [])) :=
  ⟨rfl, rfl, buffered_message_first_text bodyBuf reqBuf (some ['k'])
    ⟨200, none, some docHello⟩ ['g'] docHello rfl rfl rfl rfl rfl rfl⟩

/-- C7: for a document whose usage-metadata field, when present, is an
object, the response carries a usage field exactly when the block is
present, and the block's `promptTokenCount`, `candidatesTokenCount` and
`totalTokenCount` counters map to `prompt_tokens`, `completion_tokens` and
`total_tokens` respectively. -/
theorem usage_presence_and_mapping (d : Json) (h : usageBlockOk d = true) :
    ((usageOf d).isSome = true ↔
      ∃ fs, getField d kUsageMetadata = some (Json.obj fs)) ∧
    (∀ fs a b c, getField d kUsageMetadata = some (Json.obj fs) →
      lookupField fs kPrompt = some (Json.num a) →
      lookupField fs kCandTok = some (Json.num b) →
      lookupField fs kTotalTok = some (Json.num c) →
      usageOf d = some { prompt_tokens := Json.num a
                         completion_tokens := Json.num b
                         total_tokens := Json.num c }) := by
  constructor
  · unfold usageOf
    cases hg : getField d kUsageMetadata with
    | none =>
      refine ⟨fun hcontra => ?_, fun hex => ?_⟩
      · simp at hcontra
      · rcases hex with ⟨fs, hfs⟩
        cases hfs
    | some um =>
      unfold usageBlockOk at h
      rw [hg] at h
      cases um with
      | obj fs =>
        constructor
        · intro _; exact ⟨fs, rfl⟩
        · intro _; simp [truthy]
      | null => simp at h
      | bool b => simp at h
      | num n => simp at h
      | str s => simp at h
      | arr xs => simp at h
  · intro fs a b c hg hp hc htt
    unfold usageOf
    rw [hg]
    simp [truthy, getField, hp, hc, htt, orZero_num]

/-- C7 witness: the counters 1, 1, 2 are mapped through; absence of the
block yields no usage field. -/
theorem usage_presence_and_mapping_witness :
    usageBlockOk docUsage = true ∧
    (((usageOf docUsage).isSome = true ↔
        ∃ fs, getField docUsage kUsageMetadata = some (Json.obj fs)) ∧
      (∀ fs a b c, getField docUsage kUsageMetadata = some (Json.obj fs) →
        lookupField fs kPrompt = some (Json.num a) →
        lookupField fs kCandTok = some (Json.num b) →
        lookupField fs kTotalTok = some (Json.num c) →
        usageOf docUsage = some { prompt_tokens := Json.num a
                                  completion_tokens := Json.num b
                                  total_tokens := Json.num c })) :=
  ⟨rfl, usage_presence_and_mapping docUsage rfl⟩

/-- C8: for every valid request, an absent provider credential is answered
with HTTP 500 and an error envelope with a non-empty message, and no
provider call is attempted. -/
theorem missing_key_rejected (body : RawBody) (req : ChatReq)
    (fetch : FetchResponse) (gid : Str)
    (hv : validateChatRequest body = some req) :
    handleModel body none fetch gid =
      { outcome := HandleOutcome.missingKey 500
          { success := false, error := keyMissingMsg }
        providerCalls := 0, translatorCalls := 0 } ∧
    keyMissingMsg ≠ [] := by
  refine ⟨?_, by decide⟩
  simp [handleModel, hv, keyPresent]

/-- C8 witness: a valid request with no credential configured. -/
theorem missing_key_rejected_witness :
    validateChatRequest bodyValid = some reqValid ∧
    (handleModel bodyValid none ⟨200, none, none⟩ ['g'] =
      { outcome := HandleOutcome.missingKey 500
          { success := false, error := keyMissingMsg }
        providerCalls := 0, translatorCalls := 0 } ∧
    keyMissingMsg ≠ []) :=
  ⟨rfl, missing_key_rejected bodyValid reqValid ⟨200, none, none⟩ ['g'] rfl⟩

/-- C9: for every valid request, a provider response with a non-2xx status
is answered with the failure envelope under the provider's own status, and
neither translator path is invoked. -/
theorem provider_failure_skips_translation (body : RawBody) (req : ChatReq)
    (key : Option Str) (fetch : FetchResponse) (gid : Str)
    (hv : validateChatRequest body = some req) (hk : keyPresent key = true)
    (hs : ¬(200 ≤ fetch.status ∧ fetch.status < 300)) :
    handleModel body key fetch gid =
      { outcome := HandleOutcome.providerFailed fetch.status
          { success := false, error := providerErrMsg fetch.status }
        providerCalls := 1, translatorCalls := 0 } ∧
    providerErrMsg fetch.status ≠ [] := by
  have hf : fetchOk fetch = false := by
    unfold fetchOk
    exact decide_eq_false hs
  refine ⟨?_, ?_⟩
  · simp [handleModel, hv, hk, hf]
  · intro hc
    unfold providerErrMsg at hc
    rw [List.append_eq_nil] at hc
    exact absurd hc.1 (by decide)

/-- C9 witness: a 503 from the provider is mirrored, with no translator
invocation. -/
theorem provider_failure_skips_translation_witness :
    validateChatRequest bodyValid = some reqValid ∧
    ¬(200 ≤ (503 : Nat) ∧ (503 : Nat) < 300) ∧
    (handleModel bodyValid (some ['k']) ⟨503, none, none⟩ ['g'] =
      { outcome := HandleOutcome.providerFailed 503
          { success := false, error := providerErrMsg 503 }
        providerCalls := 1, translatorCalls := 0 } ∧
    providerErrMsg 503 ≠ []) :=
  ⟨rfl, by decide, provider_failure_skips_translation bodyValid reqValid
    (some ['k']) ⟨503, none, none⟩ ['g'] rfl rfl (by decide)⟩

/-- C10: whenever the document carries a truthy usage-metadata value, a
usage object is produced, and each of the three counters that is absent or
otherwise falsy inside the block is replaced by the number 0 — so an
omitted counter is indistinguishable from one reported as zero. -/
theorem usage_counters_default_zero (d : Json) (um : Json)
    (hg : getField d kUsageMetadata = some um) (ht : truthy um = true) :
    ∃ u, usageOf d = some u ∧
      ((getField um kPrompt = none ∨
          ∃ j, getField um kPrompt = some j ∧ truthy j = false) →
        u.prompt_tokens = Json.num 0) ∧
      ((getField um kCandTok = none ∨
          ∃ j, getField um kCandTok = some j ∧ truthy j = false) →
        u.completion_tokens = Json.num 0) ∧
      ((getField um kTotalTok = none ∨
          ∃ j, getField um kTotalTok = some j ∧ truthy j = false) →
        u.total_tokens = Json.num 0) := by
  refine ⟨{ prompt_tokens := orZero (getField um kPrompt)
            completion_tokens := orZero (getField um kCandTok)
            total_tokens := orZero (getField um kTotalTok) },
    by simp [usageOf, hg, ht], ?_, ?_, ?_⟩
  · rintro (h | ⟨j, hj, hjf⟩)
    · simp [orZero, h]
    · simp [orZero, hj, hjf]
  · rintro (h | ⟨j, hj, hjf⟩)
    · simp [orZero, h]
    · simp [orZero, hj, hjf]
  · rintro (h | ⟨j, hj, hjf⟩)
    · simp [orZero, h]
    · simp [orZero, hj, hjf]

/-- C10 witness: a block with `promptTokenCount: 0` and the other counters
omitted yields a usage object whose three counters are all 0. -/
theorem usage_counters_default_zero_witness :
    getField docUsageZero kUsageMetadata =
      some (Json.obj [(kPrompt, Json.num 0)]) ∧
    truthy (Json.obj [(kPrompt, Json.num 0)]) = true ∧
    (∃ u, usageOf docUsageZero = some u ∧
      ((getField (Json.obj [(kPrompt, Json.num 0)]) kPrompt = none ∨
          ∃ j, getField (Json.obj [(kPrompt, Json.num 0)]) kPrompt = some j ∧
            truthy j = false) →
        u.prompt_tokens = Json.num 0) ∧
      ((getField (Json.obj [(kPrompt, Json.num 0)]) kCandTok = none ∨
          ∃ j, getField (Json.obj [(kPrompt, Json.num 0)]) kCandTok = some j ∧
            truthy j = false) →
        u.completion_tokens = Json.num 0) ∧
      ((getField (Json.obj [(kPrompt, Json.num 0)]) kTotalTok = none ∨
          ∃ j, getField (Json.obj [(kPrompt, Json.num 0)]) kTotalTok = some j ∧
            truthy j = false) →
        u.total_tokens = Json.num 0)) :=
  ⟨rfl, rfl, usage_counters_default_zero docUsageZero
    (Json.obj [(kPrompt, Json.num 0)]) rfl rfl⟩

end GeminiSvc
